import Mathlib

/-!
Verification development for the oci-bundle repository (src/lib.rs,
src/sha256_reader.rs): a shallow embedding of the layer extractor, the
digest-verification step of unpack, the SHA-256 digesting reader, and the
image-config to runtime-config translation, together with theorems that
settle the frozen claims about the specification.

Modelling conventions:
- Rust paths are modelled by RPath: an absoluteness flag plus a list of
  components. Component lists are taken pre-normalized, with no single-dot
  components, as tar writers produce them; a parent component is the literal
  string that two dots form. PathBuf equality in Rust compares the
  absoluteness and component sequence, which list equality mirrors.
- The filesystem is a list of (absolute component list, kind) entries.
  Operating-system calls that take a path (read_dir, is_dir) resolve it by
  its components; the current working directory is taken to be the
  filesystem root, so a relative path and the absolute path with the same
  components resolve alike. The cap-std directory handle opened on rootfs
  rejects absolute paths and resolves relative ones under the rootfs
  components, as cap-std does.
- File names are Strings; the whiteout check in the source works on the
  raw bytes of the base name, and for names carrying the ASCII marker
  prefix the byte-level and character-level length comparisons agree.
-/

namespace OciBundle

/-- Path component. -/
abbrev Comp := String

/-- The literal two-dot parent component. -/
def dotdot : Comp := ".."

/-- A Rust path value: absoluteness flag plus components. -/
structure RPath where
  abs : Bool
  comps : List Comp
deriving DecidableEq, Repr

/-- Rust Path.ancestors, self first, down to the empty (or bare root) path. -/
def ancestorsR (p : RPath) : List RPath :=
  (List.range (p.comps.length + 1)).map
    (fun k => ⟨p.abs, p.comps.take (p.comps.length - k)⟩)

/-- Rust PathBuf.join for a relative right operand. -/
def rjoin (a : RPath) (b : List Comp) : RPath := ⟨a.abs, a.comps ++ b⟩

/-- Kind of a filesystem node. -/
inductive FKind where
  | file : FKind
  | dir : FKind
deriving DecidableEq, Repr

/-- Filesystem state: association of absolute paths to node kinds. -/
abbrev FS := List (List Comp × FKind)

/-- Kind of the node at a path, if present. -/
def fsKind (fs : FS) (p : List Comp) : Option FKind :=
  (fs.find? (fun e => e.1 == p)).map (fun e => e.2)

/-- Immediate children of a directory, in filesystem order. -/
def fsChildren (fs : FS) (d : List Comp) : List (List Comp × FKind) :=
  fs.filter (fun e => e.1.length == d.length + 1 && d.isPrefixOf e.1)

/-- Remove exactly the node at a path. -/
def fsRemoveExact (fs : FS) (p : List Comp) : FS :=
  fs.filter (fun e => e.1 ≠ p)

/-- Remove the node at a path and everything beneath it. -/
def fsRemoveSubtree (fs : FS) (p : List Comp) : FS :=
  fs.filter (fun e => ¬ p.isPrefixOf e.1)

/-- Modelled from cap-std: Dir.remove_file on the rootfs handle. An
absolute argument cannot be opened beneath the handle and is an error;
a relative argument resolves under the rootfs components and removes a
regular file, failing on directories and missing paths. -/
def capRemoveFile (rootComps : List Comp) (fs : FS) (p : RPath) :
    Except String FS :=
  if p.abs then .error "cap-std: a path led outside of the filesystem"
  else
    match fsKind fs (rootComps ++ p.comps) with
    | some FKind.file => .ok (fsRemoveExact fs (rootComps ++ p.comps))
    | some FKind.dir => .error "remove_file: is a directory"
    | none => .error "remove_file: no such file"

/-- Modelled from cap-std: Dir.remove_dir_all on the rootfs handle. -/
def capRemoveDirAll (rootComps : List Comp) (fs : FS) (p : RPath) :
    Except String FS :=
  if p.abs then .error "cap-std: a path led outside of the filesystem"
  else
    match fsKind fs (rootComps ++ p.comps) with
    | some FKind.dir => .ok (fsRemoveSubtree fs (rootComps ++ p.comps))
    | some FKind.file => .error "remove_dir_all: not a directory"
    | none => .error "remove_dir_all: no such directory"

/-- Modelled from cap-std: Dir.exists on the rootfs handle; metadata on an
absolute path fails, which exists reports as false. -/
def capExists (rootComps : List Comp) (fs : FS) (p : RPath) : Bool :=
  !p.abs && (fsKind fs (rootComps ++ p.comps)).isSome

/-- Modelled from std::fs::read_dir: list the immediate children of a
directory, failing when the path is missing or not a directory. -/
def osReadDir (fs : FS) (d : RPath) :
    Except String (List (List Comp × FKind)) :=
  match fsKind fs d.comps with
  | some FKind.dir => .ok (fsChildren fs d.comps)
  | some FKind.file => .error "read_dir: not a directory"
  | none => .error "read_dir: no such directory"

/-- Rust Path.strip_prefix: matching absoluteness and a component prefix
yield the relative remainder, anything else is an error. -/
def stripRoot (root sub : RPath) : Except String RPath :=
  if root.abs == sub.abs && root.comps.isPrefixOf sub.comps then
    .ok ⟨false, sub.comps.drop root.comps.length⟩
  else .error "strip_prefix mismatch"

/-- Every nonempty initial segment of a path, shortest first, the path
itself included last. -/
def initSegs (p : List Comp) : List (List Comp) :=
  (List.range p.length).map (fun k => p.take (k + 1))

/-- Modelled from std::fs::create_dir semantics used by unpack_in: keep an
existing directory, fail on a file, create a missing directory. -/
def ensureDir (fs : FS) (d : List Comp) : Except String FS :=
  match fsKind fs d with
  | some FKind.dir => .ok fs
  | some FKind.file => .error "create_dir: exists as a file"
  | none => .ok ((d, FKind.dir) :: fs)

/-- Create each directory of a list in order, as create_dir_all does for
the chain of missing ancestors. -/
def ensureDirs (fs : FS) : List (List Comp) → Except String FS
  | [] => .ok fs
  | d :: ds =>
    match ensureDir fs d with
    | .ok fs2 => ensureDirs fs2 ds
    | .error m => .error m

/-- Write a regular file at a path, replacing an existing file (overwrite
is enabled in the extractor) and failing on an existing directory. -/
def writeFile (fs : FS) (d : List Comp) : Except String FS :=
  match fsKind fs d with
  | some FKind.dir => .error "unpack: destination is a directory"
  | _ => .ok ((d, FKind.file) :: fsRemoveExact fs d)

/-- Modelled from the tar crate: Entry.unpack_in for a non-directory
entry. A path holding a parent component is declined without error and
without filesystem change; otherwise missing ancestor directories are
created and the file is written at the destination. -/
def tarUnpackInFile (rootComps : List Comp) (fs : FS) (p : List Comp) :
    Except String FS :=
  if p.contains dotdot then .ok fs
  else
    match ensureDirs fs (initSegs (rootComps ++ p)).dropLast with
    | .ok fs2 => writeFile fs2 (rootComps ++ p)
    | .error m => .error m

/-- Modelled from the tar crate: Entry.unpack_in for a directory entry. -/
def tarUnpackInDir (rootComps : List Comp) (fs : FS) (p : List Comp) :
    Except String FS :=
  if p.contains dotdot then .ok fs
  else ensureDirs fs (initSegs (rootComps ++ p))

/-- Rust Path.file_name on a component list: the last component, none when
the path is empty or ends in the parent component. -/
def fileName (p : List Comp) : Option Comp :=
  match p.getLast? with
  | none => none
  | some c => if c = dotdot then none else some c

/-- The four marker characters of a whiteout base name. -/
def whMark : List Char := ['.', 'w', 'h', '.']

/-- Whiteout detection from the source: the base name bytes are strictly
longer than four and begin with the marker. -/
def isWhiteoutName (n : Comp) : Bool :=
  whMark.isPrefixOf n.toList && decide (4 < n.toList.length)

/-- The target name of a regular whiteout: the base name with the four
marker bytes removed. -/
def whRest (n : Comp) : Comp := String.mk (n.toList.drop 4)

/-- The opaque whiteout base name. -/
def opqName : Comp := ".wh..wh..opq"

/-- A tar archive entry as the extractor distinguishes them: a directory
flag (from the header entry type) and the declared path. -/
structure Entry where
  isDir : Bool
  path : List Comp
deriving DecidableEq, Repr

/-- State threaded through the extraction loop: the filesystem, the
per-layer added set (files in the source), the deferred directory entry
paths, and the paths skipped with a warning. -/
structure ExtractSt where
  fs : FS
  files : List RPath
  dirs : List (List Comp)
  warnings : List (List Comp)
deriving Repr

/-- The retain test of the opaque-whiteout walk: some added path equals
the walked path or is one of its ancestors. -/
def protectedBy (files : List RPath) (sub : RPath) : Bool :=
  files.any (fun q => q == sub || (ancestorsR sub).contains q)

/-- Fold a clearing step over a child list in order, threading the
filesystem and propagating the first error. -/
def walkFold (f : FS → List Comp → Except String FS) :
    FS → List (List Comp × FKind) → Except String FS
  | fs, [] => .ok fs
  | fs, c :: cs =>
    match f fs c.1 with
    | .ok fs2 => walkFold f fs2 cs
    | .error m => .error m

/-- The recursive clearing walk of the opaque-whiteout branch, following
walkdir with the deletions interleaved: a yielded node that the retain
test protects is descended into when it is a directory (its child list
read at that moment); an unprotected directory is removed recursively and
an unprotected or vanished non-directory is removed as a file, both
through the rootfs handle after stripping the rootfs path. Recursion is
bounded by explicit fuel. -/
def walkClear (files : List RPath) (root : RPath) :
    Nat → FS → List Comp → Except String FS
  | 0, _, _ => .error "walk: fuel exhausted"
  | fuel + 1, fs, p =>
    let sub : RPath := ⟨root.abs, p⟩
    if protectedBy files sub then
      match fsKind fs p with
      | some FKind.dir =>
        walkFold (walkClear files root fuel) fs (fsChildren fs p)
      | _ => .ok fs
    else
      if fsKind fs p == some FKind.dir then
        match stripRoot root sub with
        | .ok rel => capRemoveDirAll root.comps fs rel
        | .error m => .error m
      else
        match stripRoot root sub with
        | .ok rel => capRemoveFile root.comps fs rel
        | .error m => .error m

/-- Process the immediate children of the directory an opaque whiteout
clears: a directory child is walked recursively; a non-directory child is
kept when the added set holds its read_dir path, and otherwise removed
through the rootfs handle with that path passed as read, still carrying
the rootfs components. -/
def opqChildren (files : List RPath) (root : RPath) (wabs : Bool)
    (fuel : Nat) : FS → List (List Comp × FKind) → Except String FS
  | fs, [] => .ok fs
  | fs, c :: cs =>
    match
      (if fsKind fs c.1 == some FKind.dir then
        walkClear files root fuel fs c.1
      else if files.contains (⟨wabs, c.1⟩ : RPath) then .ok fs
      else capRemoveFile root.comps fs ⟨wabs, c.1⟩) with
    | .ok fs2 => opqChildren files root wabs fuel fs2 cs
    | .error m => .error m

/-- The opaque-whiteout branch: resolve the parent of the entry under the
rootfs path, enumerate its children, and clear them. -/
def opqClear (root : RPath) (fuel : Nat) (files : List RPath) (fs : FS)
    (p : List Comp) : Except String FS :=
  let dirToClear : RPath := rjoin root p.dropLast
  match osReadDir fs dirToClear with
  | .ok children => opqChildren files root dirToClear.abs fuel fs children
  | .error m => .error m

/-- The regular-whiteout branch: join the parent of the entry with the
marker-stripped name, and when the rootfs handle reports the target as
existing remove it as a single file. -/
def regWhiteout (root : RPath) (fs : FS) (p : List Comp) (name : Comp) :
    Except String FS :=
  let fileToRemove : RPath := ⟨false, p.dropLast ++ [whRest name]⟩
  if capExists root.comps fs fileToRemove then
    capRemoveFile root.comps fs fileToRemove
  else .ok fs

/-- One iteration of the entry loop of extract_layer: directory entries
are deferred; entries without a file name are ignored; paths holding a
parent component are skipped with a warning; whiteout names take the
opaque or regular branch; anything else is recorded in the added set and
unpacked. -/
def processEntry (root : RPath) (fuel : Nat) (st : ExtractSt) (e : Entry) :
    Except String ExtractSt :=
  if e.isDir then .ok { st with dirs := st.dirs ++ [e.path] }
  else
    match fileName e.path with
    | none => .ok st
    | some name =>
      if e.path.contains dotdot then
        .ok { st with warnings := st.warnings ++ [e.path] }
      else if isWhiteoutName name then
        if name = opqName then
          match opqClear root fuel st.files st.fs e.path with
          | .ok fs2 => .ok { st with fs := fs2 }
          | .error m => .error m
        else
          match regWhiteout root st.fs e.path name with
          | .ok fs2 => .ok { st with fs := fs2 }
          | .error m => .error m
      else
        match tarUnpackInFile root.comps st.fs e.path with
        | .ok fs2 =>
          .ok { st with fs := fs2, files := st.files ++ [⟨false, e.path⟩] }
        | .error m => .error m

/-- Run the entry loop over a list of entries. -/
def runEntries (root : RPath) (fuel : Nat) :
    ExtractSt → List Entry → Except String ExtractSt
  | st, [] => .ok st
  | st, e :: es =>
    match processEntry root fuel st e with
    | .ok st2 => runEntries root fuel st2 es
    | .error m => .error m

/-- Byte comparison of two character lists; UTF-8 preserves the order of
code points, so character order mirrors the raw byte order. -/
def charListLe : List Char → List Char → Bool
  | [], _ => true
  | _ :: _, [] => false
  | a :: as, b :: bs => if a = b then charListLe as bs else decide (a < b)

/-- The byte rendering of a path as the tar header stores it. -/
def pathChars : List Comp → List Char
  | [] => []
  | [c] => c.toList
  | c :: rest => c.toList ++ '/' :: pathChars rest

/-- Comparator for the deferred-directory sort: reverse lexicographic by
raw path bytes. -/
def pathGeB (a b : List Comp) : Bool := charListLe (pathChars b) (pathChars a)

/-- Insertion into a descending list. -/
def insertByDesc (x : List Comp) : List (List Comp) → List (List Comp)
  | [] => [x]
  | y :: ys => if pathGeB x y then x :: y :: ys else y :: insertByDesc x ys

/-- Sort deferred directory paths in reverse lexicographic byte order. -/
def sortDirsDesc (ds : List (List Comp)) : List (List Comp) :=
  ds.foldr insertByDesc []

/-- Unpack the deferred directory entries in order. -/
def unpackDirs (rootComps : List Comp) :
    FS → List (List Comp) → Except String FS
  | fs, [] => .ok fs
  | fs, d :: ds =>
    match tarUnpackInDir rootComps fs d with
    | .ok fs2 => unpackDirs rootComps fs2 ds
    | .error m => .error m

/-- extract_layer from the source: run the entry loop from an empty added
set, then apply the deferred directories last in reverse lexicographic
order. -/
def extractLayer (root : RPath) (fuel : Nat) (entries : List Entry)
    (fs0 : FS) : Except String ExtractSt :=
  match runEntries root fuel ⟨fs0, [], [], []⟩ entries with
  | .ok st =>
    match unpackDirs root.comps st.fs (sortDirsDesc st.dirs) with
    | .ok fs2 => .ok { st with fs := fs2 }
    | .error m => .error m
  | .error m => .error m

/-- The entries whose paths the extraction loop records into the per-layer
added set: non-directory entries carrying a file name, free of parent
components, whose name is not a whiteout. -/
def recordsEntry (e : Entry) : Bool :=
  !e.isDir &&
    (match fileName e.path with
     | none => false
     | some n => !(e.path.contains dotdot) && !(isWhiteoutName n))

/-! SHA-256 over byte lists, used by the digesting reader model. Words are
naturals reduced modulo two to the thirty-second power. -/

/-- Reduce to a 32-bit word. -/
def w32 (n : Nat) : Nat := n % 4294967296

/-- Right rotation of a 32-bit word. -/
def rotr (n x : Nat) : Nat :=
  w32 (Nat.lor (x >>> n) (x <<< (32 - n)))

/-- Bitwise complement of a 32-bit word. -/
def not32 (x : Nat) : Nat := Nat.xor x 4294967295

/-- Big sigma zero. -/
def bsig0 (x : Nat) : Nat := Nat.xor (Nat.xor (rotr 2 x) (rotr 13 x)) (rotr 22 x)

/-- Big sigma one. -/
def bsig1 (x : Nat) : Nat := Nat.xor (Nat.xor (rotr 6 x) (rotr 11 x)) (rotr 25 x)

/-- Small sigma zero. -/
def ssig0 (x : Nat) : Nat := Nat.xor (Nat.xor (rotr 7 x) (rotr 18 x)) (x >>> 3)

/-- Small sigma one. -/
def ssig1 (x : Nat) : Nat := Nat.xor (Nat.xor (rotr 17 x) (rotr 19 x)) (x >>> 10)

/-- Choice function. -/
def chf (e f g : Nat) : Nat := Nat.xor (Nat.land e f) (Nat.land (not32 e) g)

/-- Majority function. -/
def majf (a b c : Nat) : Nat :=
  Nat.xor (Nat.xor (Nat.land a b) (Nat.land a c)) (Nat.land b c)

/-- Integer cube root by bisection with explicit fuel. -/
def icbrtAux (n : Nat) : Nat → Nat → Nat → Nat
  | 0, lo, _ => lo
  | f + 1, lo, hi =>
    if hi ≤ lo + 1 then lo
    else
      let mid := (lo + hi) / 2
      if mid * mid * mid ≤ n then icbrtAux n f mid hi else icbrtAux n f lo mid

/-- Integer cube root. -/
def icbrt (n : Nat) : Nat := icbrtAux n 200 0 (n + 1)

/-- The first sixty-four primes, sources of the round constants. -/
def primes64 : List Nat :=
  [2, 3, 5, 7, 11, 13, 17, 19, 23, 29, 31, 37, 41, 43, 47, 53,
   59, 61, 67, 71, 73, 79, 83, 89, 97, 101, 103, 107, 109, 113, 127, 131,
   137, 139, 149, 151, 157, 163, 167, 173, 179, 181, 191, 193, 197, 199,
   211, 223, 227, 229, 233, 239, 241, 251, 257, 263, 269, 271, 277, 281,
   283, 293, 307, 311]

/-- Round constant from a prime: the fractional bits of its cube root. -/
def kconst (p : Nat) : Nat := w32 (icbrt (p * 79228162514264337593543950336))

/-- The sixty-four round constants. -/
def roundKs : List Nat := primes64.map kconst

/-- Initial hash word from a prime: the fractional bits of its square
root. -/
def hconst (p : Nat) : Nat := w32 (Nat.sqrt (p * 18446744073709551616))

/-- The initial hash state. -/
def sha256H0 : List Nat := [2, 3, 5, 7, 11, 13, 17, 19].map hconst

/-- Group bytes into big-endian 32-bit words. -/
def bytesToWords : List Nat → List Nat
  | b0 :: b1 :: b2 :: b3 :: rest =>
    (((b0 * 256 + b1) * 256 + b2) * 256 + b3) :: bytesToWords rest
  | _ => []

/-- Big-endian eight-byte rendering of the bit length. -/
def be8 (n : Nat) : List Nat :=
  [n / 72057594037927936 % 256, n / 281474976710656 % 256,
   n / 1099511627776 % 256, n / 4294967296 % 256, n / 16777216 % 256,
   n / 65536 % 256, n / 256 % 256, n % 256]

/-- Pad a message to a whole number of 64-byte blocks. -/
def padMsg (m : List Nat) : List Nat :=
  let zeros := (120 - (m.length + 1) % 64) % 64
  m ++ 128 :: List.replicate zeros 0 ++ be8 (8 * m.length)

/-- Chunk a list into 64-byte blocks, with fuel for structural
recursion. -/
def toBlocksAux : Nat → List Nat → List (List Nat)
  | 0, _ => []
  | _ + 1, [] => []
  | f + 1, l => l.take 64 :: toBlocksAux f (l.drop 64)

/-- Chunk a padded message into blocks. -/
def toBlocks (l : List Nat) : List (List Nat) := toBlocksAux (l.length + 1) l

/-- Extend the sixteen schedule words to sixty-four, most recent first. -/
def extendW : Nat → List Nat → List Nat
  | 0, rev => rev
  | n + 1, rev =>
    extendW n
      (w32 (ssig1 (rev.getD 1 0) + rev.getD 6 0 + ssig0 (rev.getD 14 0) +
        rev.getD 15 0) :: rev)

/-- The message schedule of a block. -/
def schedule (ws : List Nat) : List Nat := (extendW 48 ws.reverse).reverse

/-- One compression round on the eight-word state. -/
def rnd (st : List Nat) (w k : Nat) : List Nat :=
  match st with
  | [a, b, c, d, e, f, g, h] =>
    let t1 := w32 (h + bsig1 e + chf e f g + k + w)
    let t2 := w32 (bsig0 a + majf a b c)
    [w32 (t1 + t2), a, b, c, w32 (d + t1), e, f, g]
  | other => other

/-- Run the sixty-four rounds. -/
def rounds : List Nat → List Nat → List Nat → List Nat
  | [], _, st => st
  | _, [], st => st
  | w :: ws, k :: ks, st => rounds ws ks (rnd st w k)

/-- Compress one block into the hash state. -/
def processBlock (h : List Nat) (block : List Nat) : List Nat :=
  let fin := rounds (schedule (bytesToWords block)) roundKs h
  List.zipWith (fun x s => w32 (x + s)) h fin

/-- Big-endian bytes of a 32-bit word. -/
def wordBE (w : Nat) : List Nat :=
  [w / 16777216 % 256, w / 65536 % 256, w / 256 % 256, w % 256]

/-- The SHA-256 digest bytes of a byte list. -/
def sha256 (m : List Nat) : List Nat :=
  ((toBlocks (padMsg m)).foldl processBlock sha256H0).foldr
    (fun w acc => wordBE w ++ acc) []

/-- A lowercase hexadecimal digit character. -/
def hexDigit (n : Nat) : Char :=
  if n < 10 then Char.ofNat (48 + n) else Char.ofNat (87 + n)

/-- Lowercase hexadecimal rendering of a byte list. -/
def hexEncode (bs : List Nat) : String :=
  String.mk (bs.foldr (fun b acc => hexDigit (b / 16) :: hexDigit (b % 16) :: acc) [])

/-! The digesting reader of src/sha256_reader.rs. The underlying stream is
a list of read outcomes: each call to the inner read yields the next chunk
of bytes or an input error; an exhausted list reads as end of stream. The
openssl digest context is determined by the byte sequence fed to update,
so the model carries that sequence. -/

/-- One outcome of reading the underlying stream. -/
abbrev Chunk := Except String (List Nat)

/-- Sha256Reader from the source: the wrapped stream and the bytes
absorbed so far. -/
structure Sha256Reader where
  inner : List Chunk
  sha : List Nat
deriving Repr

/-- Sha256Reader.new. -/
def Sha256Reader.new (inner : List Chunk) : Sha256Reader := ⟨inner, []⟩

/-- Sha256Reader.read: pull one chunk from the inner stream, absorb every
byte that is returned, and propagate an inner error unchanged. An
exhausted stream returns the empty chunk, the read of length zero. -/
def Sha256Reader.read (r : Sha256Reader) :
    Except String (List Nat × Sha256Reader) :=
  match r.inner with
  | [] => .ok ([], r)
  | .error e :: _ => .error e
  | .ok bs :: rest => .ok (bs, ⟨rest, r.sha ++ bs⟩)

/-- Drain a stream to end of input, returning all remaining bytes or the
first error. -/
def drainAll : List Chunk → Except String (List Nat)
  | [] => .ok []
  | .error e :: _ => .error e
  | .ok bs :: rest =>
    match drainAll rest with
    | .ok tail => .ok (bs ++ tail)
    | .error e => .error e

/-- Sha256Reader.finish: read the stream to its end through the digesting
read (absorbing the remainder), then return the lowercase hexadecimal
digest together with the exhausted underlying stream. -/
def Sha256Reader.finish (r : Sha256Reader) :
    Except String (String × List Chunk) :=
  match drainAll r.inner with
  | .ok rem => .ok (hexEncode (sha256 (r.sha ++ rem)), [])
  | .error e => .error e

/-! The per-layer digest verification of unpack in src/lib.rs. The value
a descriptor reports through digest().digest() is the encoded component of
the digest string, the part after the algorithm prefix and colon. -/

/-- The encoded component of an algorithm-prefixed digest string. -/
def digestComponent (d : String) : String :=
  String.mk ((d.toList.dropWhile (fun c => c ≠ ':')).drop 1)

/-- The digest comparisons of unpack for one gzip layer, taking the
finalization results of the inner (uncompressed) and outer (compressed)
digesters. The inner digester is finalized and checked first: its
discovered value is prefixed and compared with the expected diff ID from
the image configuration; only then is the outer digester finalized and its
discovered value compared with the encoded component of the descriptor
digest. A mismatch produces the bail message of the source, carrying the
expected and discovered values. -/
def checkLayerDigests (expectedDiffId descriptorDigest : String)
    (diffFinish digestFinish : Except String String) :
    Except String Unit :=
  match diffFinish with
  | .error m => .error m
  | .ok discoveredDiff =>
    if "sha256:" ++ discoveredDiff ≠ expectedDiffId then
      .error ("Diff ID mismatch. Expected diff ID " ++ expectedDiffId ++
        ". Discovered diff ID " ++ discoveredDiff)
    else
      match digestFinish with
      | .error m => .error m
      | .ok discoveredDigest =>
        if digestComponent descriptorDigest ≠ discoveredDigest then
          .error ("Layer digest mismatch. Expected digest " ++
            digestComponent descriptorDigest ++ ". Discovered digest " ++
            discoveredDigest)
        else .ok ()

/-! The image-config to runtime-config translation of src/lib.rs, with the
host identity database as an explicit value. Annotation assembly is left
out of the model; no claim concerns it. -/

/-- A user database entry. -/
structure HostUser where
  name : String
  uid : Nat
  primaryGid : Nat
deriving DecidableEq, Repr

/-- A group database entry. -/
structure HostGroup where
  name : String
  gid : Nat
  members : List String
deriving DecidableEq, Repr

/-- The host identity database. -/
structure IdDb where
  users : List HostUser
  groups : List HostGroup
deriving Repr

/-- Lookup by user id, first match. -/
def getUserByUid (db : IdDb) (uid : Nat) : Option HostUser :=
  db.users.find? (fun u => u.uid == uid)

/-- Lookup by user name, first match. -/
def getUserByName (db : IdDb) (name : String) : Option HostUser :=
  db.users.find? (fun u => u.name == name)

/-- Lookup by group id, first match. -/
def getGroupByGid (db : IdDb) (gid : Nat) : Option HostGroup :=
  db.groups.find? (fun g => g.gid == gid)

/-- Lookup by group name, first match. -/
def getGroupByName (db : IdDb) (name : String) : Option HostGroup :=
  db.groups.find? (fun g => g.name == name)

/-- Rust u32 parsing as the source uses it: an optional plus sign, then
one or more decimal digits, value below two to the thirty-second power. -/
def parseU32 (s : String) : Option Nat :=
  let cs := match s.toList with
    | '+' :: rest => rest
    | cs => cs
  if cs ≠ [] ∧ cs.all (fun c => c.isDigit) then
    let v := cs.foldl (fun a c => a * 10 + (c.toNat - 48)) 0
    if v < 4294967296 then some v else none
  else none

/-- resolve_user from the source: a numeric token is looked up by uid and
must exist; otherwise the token is looked up as a name; the result is the
uid and primary gid of the found user. -/
def resolveUser (db : IdDb) (user : String) : Except String (Nat × Nat) :=
  match parseU32 user with
  | some uid =>
    match getUserByUid db uid with
    | some u => .ok (u.uid, u.primaryGid)
    | none => .error ("User ID " ++ toString uid ++ " not found")
  | none =>
    match getUserByName db user with
    | some u => .ok (u.uid, u.primaryGid)
    | none => .error ("User " ++ user ++ " not found")

/-- resolve_group from the source: a numeric token must exist as a gid and
resolves to itself; otherwise the token is looked up as a group name. -/
def resolveGroup (db : IdDb) (group : String) : Except String Nat :=
  match parseU32 group with
  | some gid =>
    match getGroupByGid db gid with
    | some _ => .ok gid
    | none => .error ("Group ID " ++ toString gid ++ " not found")
  | none =>
    match getGroupByName db group with
    | some g => .ok g.gid
    | none => .error ("Group " ++ group ++ " not found")

/-- resolve_additional_gids from the source: look the uid up again, then
collect the gid of every group whose member list holds the user name. -/
def resolveAdditionalGids (db : IdDb) (uid : Nat) :
    Except String (List Nat) :=
  match getUserByUid db uid with
  | some u =>
    .ok ((db.groups.filter (fun g => g.members.contains u.name)).map
      (fun g => g.gid))
  | none => .error ("User ID " ++ toString uid ++ " not found")

/-- Rust str split on the colon character: every separator splits, empty
pieces kept, the empty string yielding one empty piece. -/
def splitColon : List Char → List (List Char)
  | [] => [[]]
  | c :: rest =>
    match splitColon rest with
    | [] => if c = ':' then [[], []] else [[c]]
    | h :: t => if c = ':' then [] :: h :: t else (c :: h) :: t

/-- The resolved user block of the runtime process. -/
structure UserSpec where
  uid : Nat
  gid : Nat
  additionalGids : List Nat
deriving DecidableEq, Repr

/-- The user translation of create_runtime_config: split config.user on
colons; one piece resolves the user and computes supplementary gids; two
pieces resolve user and group with no supplementary gids; anything else is
the invalid-format error. -/
def buildUser (db : IdDb) (user : String) : Except String UserSpec :=
  match splitColon user.toList with
  | [u] =>
    match resolveUser db (String.mk u) with
    | .ok (uid, gid) =>
      match resolveAdditionalGids db uid with
      | .ok ags => .ok ⟨uid, gid, ags⟩
      | .error m => .error m
    | .error m => .error m
  | [u, g] =>
    match resolveUser db (String.mk u) with
    | .ok (uid, _) =>
      match resolveGroup db (String.mk g) with
      | .ok gid => .ok ⟨uid, gid, []⟩
      | .error m => .error m
    | .error m => .error m
  | _ => .error "Invalid user format in Config.User"

/-- The execution config block of an image configuration. -/
structure ImgExecConfig where
  workingDir : Option String
  entrypoint : Option (List String)
  cmd : Option (List String)
  env : Option (List String)
  user : Option String
deriving Repr

/-- An image configuration, reduced to the fields the claims concern. -/
structure ImageConfig where
  config : Option ImgExecConfig
deriving Repr

/-- The process block of the produced runtime spec; cwd is a plain path,
not optional, as in the runtime spec types. -/
structure RtProcess where
  cwd : String
  args : Option (List String)
  env : Option (List String)
  user : Option UserSpec
deriving DecidableEq, Repr

/-- The produced runtime spec, reduced to its process block. -/
structure RtSpec where
  process : Option RtProcess
deriving DecidableEq, Repr

/-- Modelled from the oci-spec runtime types: the process value that
ProcessBuilder default build produces. The struct-level builder default
delegates to the Process Default impl, the canonical runc-style default
process: cwd is the root directory, args is the single element sh, env is
the standard PATH and TERM pair, and no user. -/
def defaultProcess : RtProcess :=
  ⟨"/", some ["sh"],
    some
      ["PATH=/usr/local/sbin:/usr/local/bin:/usr/sbin:/usr/bin:/sbin:/bin",
       "TERM=xterm"], none⟩

/-- The process construction of create_runtime_config: start from the
builder default process, set the working directory when present, set args
by the entrypoint and cmd match of the source (the absent and absent case
touches nothing, leaving the default args), overwrite env unconditionally
with the config env, and resolve the user when present. -/
def buildProcess (db : IdDb) (c : ImgExecConfig) :
    Except String RtProcess :=
  let p0 : RtProcess := defaultProcess
  let p1 := match c.workingDir with
    | some d => { p0 with cwd := d }
    | none => p0
  let p2 := match c.entrypoint, c.cmd with
    | none, none => p1
    | none, some cmd => { p1 with args := some cmd }
    | some entrypoint, none => { p1 with args := some entrypoint }
    | some entrypoint, some cmd => { p1 with args := some (entrypoint ++ cmd) }
  let p3 := { p2 with env := c.env }
  match c.user with
  | none => .ok p3
  | some u =>
    match buildUser db u with
    | .ok us => .ok { p3 with user := some us }
    | .error m => .error m

/-- create_runtime_config, reduced to the process block: with no config
sub-block the spec keeps no process; with one, the process is built and a
user-resolution failure is fatal. -/
def createRuntimeConfig (db : IdDb) (cfg : ImageConfig) :
    Except String RtSpec :=
  match cfg.config with
  | none => .ok ⟨none⟩
  | some c =>
    match buildProcess db c with
    | .ok p => .ok ⟨some p⟩
    | .error m => .error m

/-! Theorems settling the claims. -/

/-- C1: the claim states that an opaque whiteout preserves every path that
was added earlier in the same layer as a non-whiteout entry. The code
compares the walked filesystem paths, which carry the rootfs path, against
the relative tar paths in the added set, so the retain test never fires:
on a layer that first adds a, b, keep and then carries the opaque marker
under a, the added set holds that very path and yet the subtree a, b is
recursively deleted, keep included. The final state below exhibits both
the recorded added path and the cleared filesystem. -/
theorem c1_opq_deletes_added_path :
    extractLayer ⟨true, ["r"]⟩ 9
        [⟨false, ["a", "b", "keep"]⟩, ⟨false, ["a", ".wh..wh..opq"]⟩]
        [(["r"], FKind.dir)] =
      .ok ⟨[(["r", "a"], FKind.dir), (["r"], FKind.dir)],
        [⟨false, ["a", "b", "keep"]⟩], [], []⟩ ∧
    fsKind [(["r", "a"], FKind.dir), (["r"], FKind.dir)]
      ["r", "a", "b", "keep"] = none := by
  exact ⟨rfl, rfl⟩

/-- C2: the claim states that every deletion performed during whiteout
handling passes a path relative to the rootfs handle, never prefixed with
the rootfs path. At the non-directory child branch of the opaque clear the
code hands the enumerated path to the handle exactly as read_dir produced
it, still carrying the rootfs components, and the restricted handle
rejects it: clearing a directory that holds a plain file fails instead of
deleting the file. -/
theorem c2_opq_absolute_deletion_path :
    extractLayer ⟨true, ["r"]⟩ 9 [⟨false, ["a", ".wh..wh..opq"]⟩]
        [(["r"], FKind.dir), (["r", "a"], FKind.dir),
          (["r", "a", "f"], FKind.file)] =
      .error "cap-std: a path led outside of the filesystem" := by
  exact rfl

/-- C3 counterexample: the claim states that every entry whose path holds
a parent component, directory entries included, is skipped with a warning.
A directory entry with such a path is instead deferred with no warning
recorded; the deferred unpack then declines it, so the run succeeds with
an unchanged filesystem and an empty warning list. -/
theorem c3_dir_dotdot_no_warning :
    extractLayer ⟨true, ["r"]⟩ 9 [⟨true, ["a", "..", "b"]⟩] [] =
      .ok ⟨[], [], [["a", "..", "b"]], []⟩ := by
  exact rfl

/-- C3 amended: a non-directory entry with a file name whose path holds a
parent component is skipped with a warning and changes nothing; a
directory entry is deferred without a warning and, when its path holds a
parent component, its deferred unpack declines it without error or
filesystem change; a non-directory entry without a file name is ignored
silently. In every case the entry alone neither changes the filesystem
nor fails the unpack. -/
theorem c3_dotdot_entries_harmless :
    (∀ (root : RPath) (fuel : Nat) (st : ExtractSt) (p : List Comp)
        (n : Comp), fileName p = some n → p.contains dotdot = true →
        processEntry root fuel st ⟨false, p⟩ =
          .ok { st with warnings := st.warnings ++ [p] }) ∧
    (∀ (root : RPath) (fuel : Nat) (st : ExtractSt) (p : List Comp),
        processEntry root fuel st ⟨true, p⟩ =
          .ok { st with dirs := st.dirs ++ [p] }) ∧
    (∀ (rc : List Comp) (fs : FS) (p : List Comp),
        p.contains dotdot = true → tarUnpackInDir rc fs p = .ok fs) ∧
    (∀ (root : RPath) (fuel : Nat) (st : ExtractSt) (p : List Comp),
        fileName p = none → processEntry root fuel st ⟨false, p⟩ = .ok st) := by
  refine ⟨?_, ?_, ?_, ?_⟩
  · intro root fuel st p n hn hdd
    have hm : dotdot ∈ p := by simpa using hdd
    simp [processEntry, hn, hm]
  · intro root fuel st p
    simp [processEntry]
  · intro rc fs p hdd
    have hm : dotdot ∈ p := by simpa using hdd
    simp [tarUnpackInDir, hm]
  · intro root fuel st p hn
    simp [processEntry, hn]

/-- C3 witness: the amended statement applied at concrete entries. -/
theorem c3_dotdot_entries_harmless_witness :
    fileName ["a", "..", "b"] = some "b" ∧
    (["a", "..", "b"] : List Comp).contains dotdot = true ∧
    processEntry ⟨true, ["r"]⟩ 9 ⟨[], [], [], []⟩ ⟨false, ["a", "..", "b"]⟩ =
      .ok ⟨[], [], [], [["a", "..", "b"]]⟩ ∧
    fileName ["a", ".."] = none ∧
    processEntry ⟨true, ["r"]⟩ 9 ⟨[], [], [], []⟩ ⟨false, ["a", ".."]⟩ =
      .ok ⟨[], [], [], []⟩ :=
  ⟨by decide, by decide,
    c3_dotdot_entries_harmless.1 ⟨true, ["r"]⟩ 9 ⟨[], [], [], []⟩
      ["a", "..", "b"] "b" (by decide) (by decide),
    by decide,
    c3_dotdot_entries_harmless.2.2.2 ⟨true, ["r"]⟩ 9 ⟨[], [], [], []⟩
      ["a", ".."] (by decide)⟩

/-- C4 counterexample: the claim states that the discovered layer digest
is compared, in its prefixed form, against the expected digest of the
layer descriptor. The code instead compares the bare encoded component of
the descriptor digest: for a descriptor carrying a different algorithm
prefix the two comparisons disagree, and the code accepts where the
claimed comparison would reject. -/
theorem c4_digest_compared_unprefixed :
    checkLayerDigests "sha256:ab" "sha512:cd" (.ok "ab") (.ok "cd") =
      .ok () ∧
    "sha256:" ++ "cd" ≠ "sha512:cd" := by
  exact ⟨rfl, by decide⟩

/-- C4 amended: after the inner digester is finalized its discovered diff
ID is compared in prefixed form against the expected diff ID, and this
check comes first: an inner finalization error or a diff mismatch is
reported before the outer result is consulted. The discovered layer digest
is then compared against the encoded component of the descriptor digest,
with the algorithm prefix stripped. Each mismatch is fatal with a message
carrying the expected and the discovered value. -/
theorem c4_digest_check_behaviour :
    (∀ (e d dd dg : String),
        checkLayerDigests e d (.ok dd) (.ok dg) = .ok () ↔
          ("sha256:" ++ dd = e ∧ digestComponent d = dg)) ∧
    (∀ (e d dd : String) (dgF : Except String String),
        "sha256:" ++ dd ≠ e →
        checkLayerDigests e d (.ok dd) dgF =
          .error ("Diff ID mismatch. Expected diff ID " ++ e ++
            ". Discovered diff ID " ++ dd)) ∧
    (∀ (e d dd dg : String), "sha256:" ++ dd = e →
        digestComponent d ≠ dg →
        checkLayerDigests e d (.ok dd) (.ok dg) =
          .error ("Layer digest mismatch. Expected digest " ++
            digestComponent d ++ ". Discovered digest " ++ dg)) ∧
    (∀ (e d m : String) (dgF : Except String String),
        checkLayerDigests e d (.error m) dgF = .error m) := by
  refine ⟨?_, ?_, ?_, ?_⟩
  · intro e d dd dg
    constructor
    · intro h
      by_cases h1 : "sha256:" ++ dd = e
      · by_cases h2 : digestComponent d = dg
        · exact ⟨h1, h2⟩
        · simp [checkLayerDigests, h1, h2] at h
      · simp [checkLayerDigests, h1] at h
    · intro ⟨h1, h2⟩
      simp [checkLayerDigests, h1, h2]
  · intro e d dd dgF h1
    simp [checkLayerDigests, h1]
  · intro e d dd dg h1 h2
    simp [checkLayerDigests, h1, h2]
  · intro e d m dgF
    simp [checkLayerDigests]

/-- Prefix test of a list against itself extended. -/
theorem isPre_self_append (l t : List Char) : l.isPrefixOf (l ++ t) = true := by
  induction l with
  | nil => simp [List.isPrefixOf]
  | cons a as ih => simp [List.isPrefixOf, ih]

/-- A marker-carrying name with a nonempty remainder passes the whiteout
test. -/
theorem isWhiteoutName_mk (t : List Char) (ht : t ≠ []) :
    isWhiteoutName (String.mk (whMark ++ t)) = true := by
  have hlen : 0 < t.length := List.length_pos.mpr ht
  simp [isWhiteoutName, String.toList, isPre_self_append, whMark]
  omega

/-- Stripping the marker from a marker-carrying name leaves the
remainder. -/
theorem whRest_mk (t : List Char) :
    whRest (String.mk (whMark ++ t)) = String.mk t := by
  have : whMark.length = 4 := by rfl
  simp [whRest, String.toList, ← this, List.drop_left]

/-- C5 counterexample: the claim states that a regular whiteout whose
target exists removes it. When the target exists as a directory the single
file delete fails and the layer extraction errors out instead of removing
anything. -/
theorem c5_dir_target_errors :
    extractLayer ⟨true, ["r"]⟩ 9 [⟨false, ["a", ".wh.x"]⟩]
        [(["r"], FKind.dir), (["r", "a"], FKind.dir),
          (["r", "a", "x"], FKind.dir)] =
      .error "remove_file: is a directory" := by
  exact rfl

/-- C5 amended: for a regular whiteout entry, with target the parent of
the entry joined with the marker-stripped name resolved under rootfs: a
target existing as a regular file is removed with a single-file delete; a
missing target leaves the state untouched and is no error; a target
existing as a directory makes the single-file delete fail and the error
propagates, so directories are never recursively removed. The marker
itself is never materialized: the added set is unchanged in every case and
the removal only ever drops filesystem entries. -/
theorem c5_regular_whiteout_behaviour :
    ∀ (root : RPath) (fuel : Nat) (st : ExtractSt) (p : List Comp)
      (t : List Char), fileName p = some (String.mk (whMark ++ t)) →
      t ≠ [] → String.mk (whMark ++ t) ≠ opqName →
      p.contains dotdot = false →
      ((fsKind st.fs (root.comps ++ (p.dropLast ++ [String.mk t])) =
          some FKind.file →
        processEntry root fuel st ⟨false, p⟩ =
          .ok { st with
                fs := fsRemoveExact st.fs
                  (root.comps ++ (p.dropLast ++ [String.mk t])) }) ∧
      (fsKind st.fs (root.comps ++ (p.dropLast ++ [String.mk t])) = none →
        processEntry root fuel st ⟨false, p⟩ = .ok st) ∧
      (fsKind st.fs (root.comps ++ (p.dropLast ++ [String.mk t])) =
          some FKind.dir →
        processEntry root fuel st ⟨false, p⟩ =
          .error "remove_file: is a directory") ∧
      (∀ (fs : FS) (x : List Comp) (en : List Comp × FKind),
        en ∈ fsRemoveExact fs x → en ∈ fs)) := by
  intro root fuel st p t hn ht ho hdd
  have hm : dotdot ∉ p := by simpa using hdd
  have hw := isWhiteoutName_mk t ht
  refine ⟨?_, ?_, ?_, ?_⟩
  · intro hk
    simp [processEntry, hn, hm, hw, ho, regWhiteout, whRest_mk, capExists,
      capRemoveFile, hk]
  · intro hk
    simp [processEntry, hn, hm, hw, ho, regWhiteout, whRest_mk, capExists,
      capRemoveFile, hk]
  · intro hk
    simp [processEntry, hn, hm, hw, ho, regWhiteout, whRest_mk, capExists,
      capRemoveFile, hk]
  · intro fs x en hmem
    exact List.mem_of_mem_filter hmem

/-- C5 witness: the amended statement applied at a concrete state, in the
file-target and missing-target cases. -/
theorem c5_regular_whiteout_behaviour_witness :
    fileName ["a", ".wh.x"] = some (String.mk (whMark ++ ['x'])) ∧
    fsKind [(["r"], FKind.dir), (["r", "a"], FKind.dir),
        (["r", "a", "x"], FKind.file)]
      (["r"] ++ (["a", ".wh.x"].dropLast ++ [String.mk ['x']])) =
      some FKind.file ∧
    processEntry ⟨true, ["r"]⟩ 9
        ⟨[(["r"], FKind.dir), (["r", "a"], FKind.dir),
          (["r", "a", "x"], FKind.file)], [], [], []⟩
        ⟨false, ["a", ".wh.x"]⟩ =
      .ok ⟨[(["r"], FKind.dir), (["r", "a"], FKind.dir)], [], [], []⟩ :=
  ⟨by decide, by decide, by
    have h := (c5_regular_whiteout_behaviour ⟨true, ["r"]⟩ 9
      ⟨[(["r"], FKind.dir), (["r", "a"], FKind.dir),
        (["r", "a", "x"], FKind.file)], [], [], []⟩
      ["a", ".wh.x"] ['x'] (by decide) (by decide) (by decide)
      (by decide)).1 (by decide)
    exact h⟩

/-- Files recorded by one loop iteration. -/
theorem processEntry_files_eq (root : RPath) (fuel : Nat) (st : ExtractSt)
    (e : Entry) (st2 : ExtractSt)
    (h : processEntry root fuel st e = .ok st2) :
    st2.files = st.files ++
      (if recordsEntry e then [(⟨false, e.path⟩ : RPath)] else []) := by
  obtain ⟨d, p⟩ := e
  cases d with
  | true =>
    simp [processEntry] at h
    subst h
    simp [recordsEntry]
  | false =>
    cases hf : fileName p with
    | none =>
      simp [processEntry, hf] at h
      subst h
      simp [recordsEntry, hf]
    | some n =>
      by_cases hdd : dotdot ∈ p
      · simp [processEntry, hf, hdd] at h
        subst h
        simp [recordsEntry, hf, hdd]
      · by_cases hw : isWhiteoutName n = true
        · by_cases ho : n = opqName
          · subst ho
            rcases hoc : opqClear root fuel st.files st.fs p with m | fs2
            · simp [processEntry, hf, hdd, hw, hoc] at h
            · simp [processEntry, hf, hdd, hw, hoc] at h
              subst h
              simp [recordsEntry, hf, hw]
          · rcases hrc : regWhiteout root st.fs p n with m | fs2
            · simp [processEntry, hf, hdd, hw, ho, hrc] at h
            · simp [processEntry, hf, hdd, hw, ho, hrc] at h
              subst h
              simp [recordsEntry, hf, hw]
        · rcases htc : tarUnpackInFile root.comps st.fs p with m | fs2
          · simp [processEntry, hf, hdd, hw, htc] at h
          · simp [processEntry, hf, hdd, hw, htc] at h
            subst h
            simp [recordsEntry, hf, hdd, hw]

/-- Files recorded across the whole loop. -/
theorem runEntries_files_eq (root : RPath) (fuel : Nat) :
    ∀ (es : List Entry) (st st2 : ExtractSt),
      runEntries root fuel st es = .ok st2 →
      st2.files = st.files ++
        (es.filter recordsEntry).map (fun e => (⟨false, e.path⟩ : RPath)) := by
  intro es
  induction es with
  | nil =>
    intro st st2 h
    simp [runEntries] at h
    subst h
    simp
  | cons e es ih =>
    intro st st2 h
    unfold runEntries at h
    rcases hp : processEntry root fuel st e with m | st1
    · rw [hp] at h
      cases h
    · rw [hp] at h
      have h1 := processEntry_files_eq root fuel st e st1 hp
      have h2 := ih st1 st2 h
      rw [h2, h1]
      by_cases hr : recordsEntry e
      · simp [List.filter_cons, hr, List.append_assoc]
      · simp [List.filter_cons, hr]

/-- C6 counterexample: the claim states that the added set records every
non-whiteout entry applied from the layer, deferred directory entries
included. A layer holding a single directory entry applies it (the final
filesystem carries the directory) and yet the added set stays empty. -/
theorem c6_dir_entry_not_recorded :
    extractLayer ⟨true, ["r"]⟩ 9 [⟨true, ["d"]⟩] [] =
      .ok ⟨[(["r", "d"], FKind.dir), (["r"], FKind.dir)], [], [["d"]], []⟩ := by
  exact rfl

/-- C6 amended: across one extraction the added set records exactly the
paths of the non-directory, non-whiteout entries that carry a file name
free of parent components, in order; deferred directory entries and
whiteout markers contribute nothing. -/
theorem c6_added_set_exact :
    ∀ (root : RPath) (fuel : Nat) (entries : List Entry) (fs0 : FS)
      (st : ExtractSt), extractLayer root fuel entries fs0 = .ok st →
      st.files =
        (entries.filter recordsEntry).map (fun e => (⟨false, e.path⟩ : RPath)) := by
  intro root fuel entries fs0 st h
  unfold extractLayer at h
  rcases hr : runEntries root fuel ⟨fs0, [], [], []⟩ entries with m | st1
  · rw [hr] at h
    cases h
  · rw [hr] at h
    rcases hu : unpackDirs root.comps st1.fs (sortDirsDesc st1.dirs) with
      m | fs2
    · simp [hu] at h
    · simp [hu] at h
      have := runEntries_files_eq root fuel entries ⟨fs0, [], [], []⟩ st1 hr
      rw [← h]
      simpa using this

/-- C6 witness: the amended statement applied at a concrete layer. -/
theorem c6_added_set_exact_witness :
    extractLayer ⟨true, ["r"]⟩ 9 [⟨false, ["x"]⟩] [] =
      .ok ⟨[(["r", "x"], FKind.file), (["r"], FKind.dir)],
        [⟨false, ["x"]⟩], [], []⟩ ∧
    (⟨[(["r", "x"], FKind.file), (["r"], FKind.dir)],
        [⟨false, ["x"]⟩], [], []⟩ : ExtractSt).files =
      (([⟨false, ["x"]⟩] : List Entry).filter recordsEntry).map
        (fun e => (⟨false, e.path⟩ : RPath)) :=
  ⟨by rfl,
    c6_added_set_exact ⟨true, ["r"]⟩ 9 [⟨false, ["x"]⟩] []
      ⟨[(["r", "x"], FKind.file), (["r"], FKind.dir)],
        [⟨false, ["x"]⟩], [], []⟩ (by rfl)⟩

/-- A successful file write leaves a regular file at the destination. -/
theorem writeFile_ok_kind (fs : FS) (d : List Comp) (fs2 : FS)
    (h : writeFile fs d = .ok fs2) : fsKind fs2 d = some FKind.file := by
  unfold writeFile at h
  rcases hk : fsKind fs d with _ | k
  · rw [hk] at h
    simp at h
    subst h
    simp [fsKind, List.find?]
  · cases k
    · rw [hk] at h
      simp at h
      subst h
      simp [fsKind, List.find?]
    · rw [hk] at h
      cases h

/-- A successful non-directory unpack of a parent-free path leaves a
regular file at the destination. -/
theorem tarUnpackInFile_ok_kind (rc : List Comp) (fs : FS) (p : List Comp)
    (fs2 : FS) (hm : dotdot ∉ p)
    (h : tarUnpackInFile rc fs p = .ok fs2) :
    fsKind fs2 (rc ++ p) = some FKind.file := by
  unfold tarUnpackInFile at h
  simp [hm] at h
  rcases he : ensureDirs fs (initSegs (rc ++ p)).dropLast with m | fs1
  · rw [he] at h
    cases h
  · rw [he] at h
    exact writeFile_ok_kind fs1 (rc ++ p) fs2 h

/-- C10: a non-directory entry whose base name is exactly the four marker
bytes is not a whiteout, because detection demands a strictly longer name:
the entry is recorded in the added set and unpacked as an ordinary file,
and an unpack failure for it propagates like that of any plain entry. -/
theorem c10_bare_marker_is_plain_file :
    ∀ (root : RPath) (fuel : Nat) (st : ExtractSt) (p : List Comp),
      fileName p = some ".wh." → p.contains dotdot = false →
      (∀ fs2 : FS, tarUnpackInFile root.comps st.fs p = .ok fs2 →
        processEntry root fuel st ⟨false, p⟩ =
          .ok { st with
                fs := fs2,
                files := st.files ++ [(⟨false, p⟩ : RPath)] } ∧
        fsKind fs2 (root.comps ++ p) = some FKind.file) ∧
      (∀ m : String, tarUnpackInFile root.comps st.fs p = .error m →
        processEntry root fuel st ⟨false, p⟩ = .error m) := by
  intro root fuel st p hn hdd
  have hm : dotdot ∉ p := by simpa using hdd
  have hw : isWhiteoutName ".wh." = false := by decide
  constructor
  · intro fs2 ht
    refine ⟨?_, tarUnpackInFile_ok_kind root.comps st.fs p fs2 hm ht⟩
    simp [processEntry, hn, hm, hw, ht]
  · intro m ht
    simp [processEntry, hn, hm, hw, ht]

/-- C10 witness: the statement applied at a concrete entry. -/
theorem c10_bare_marker_is_plain_file_witness :
    fileName ["a", ".wh."] = some ".wh." ∧
    tarUnpackInFile ["r"] [(["r"], FKind.dir)] ["a", ".wh."] =
      .ok [(["r", "a", ".wh."], FKind.file), (["r", "a"], FKind.dir),
        (["r"], FKind.dir)] ∧
    processEntry ⟨true, ["r"]⟩ 9 ⟨[(["r"], FKind.dir)], [], [], []⟩
        ⟨false, ["a", ".wh."]⟩ =
      .ok ⟨[(["r", "a", ".wh."], FKind.file), (["r", "a"], FKind.dir),
        (["r"], FKind.dir)], [⟨false, ["a", ".wh."]⟩], [], []⟩ :=
  ⟨by decide, by rfl, by
    have h := ((c10_bare_marker_is_plain_file ⟨true, ["r"]⟩ 9
      ⟨[(["r"], FKind.dir)], [], [], []⟩ ["a", ".wh."] (by decide)
      (by decide)).1
      [(["r", "a", ".wh."], FKind.file), (["r", "a"], FKind.dir),
        (["r"], FKind.dir)] (by rfl)).1
    exact h⟩

/-- C4 witness: the amended statement applied at concrete values. -/
theorem c4_digest_check_behaviour_witness :
    ("sha256:" ++ "ff" ≠ "sha256:ee") ∧
    checkLayerDigests "sha256:ee" "sha256:aa" (.ok "ff") (.error "boom") =
      .error ("Diff ID mismatch. Expected diff ID " ++ "sha256:ee" ++
        ". Discovered diff ID " ++ "ff") ∧
    ("sha256:" ++ "ee" = "sha256:ee") ∧
    (digestComponent "sha256:aa" ≠ "bb") ∧
    checkLayerDigests "sha256:ee" "sha256:aa" (.ok "ee") (.ok "bb") =
      .error ("Layer digest mismatch. Expected digest " ++
        digestComponent "sha256:aa" ++ ". Discovered digest " ++ "bb") :=
  ⟨by decide, c4_digest_check_behaviour.2.1 "sha256:ee" "sha256:aa" "ff"
      (.error "boom") (by decide),
    by decide, by decide,
    c4_digest_check_behaviour.2.2.1 "sha256:ee" "sha256:aa" "ee" "bb"
      (by decide) (by decide)⟩

/-- Every byte of a word rendering is below 256. -/
theorem mem_wordBE_lt (b w : Nat) (h : b ∈ wordBE w) : b < 256 := by
  simp [wordBE] at h
  rcases h with h | h | h | h <;> omega

/-- Every byte a digest renders is below 256. -/
theorem mem_foldr_wordBE_lt (ws : List Nat) (b : Nat)
    (h : b ∈ ws.foldr (fun w acc => wordBE w ++ acc) []) : b < 256 := by
  induction ws with
  | nil => simp at h
  | cons w ws ih =>
    simp only [List.foldr_cons, List.mem_append] at h
    rcases h with h | h
    · exact mem_wordBE_lt b w h
    · exact ih h

/-- Every byte of a SHA-256 digest is below 256. -/
theorem mem_sha256_lt (m : List Nat) (b : Nat) (h : b ∈ sha256 m) :
    b < 256 := by
  exact mem_foldr_wordBE_lt _ b h

/-- A digit value renders to a lowercase hexadecimal character. -/
theorem hexDigit_mem (n : Nat) (h : n < 16) :
    hexDigit n ∈ ("0123456789abcdef".toList) := by
  interval_cases n <;> decide

/-- The rendering of a byte list below 256 uses only lowercase
hexadecimal characters. -/
theorem hexEncode_chars (bs : List Nat) (hb : ∀ b ∈ bs, b < 256) :
    ∀ c ∈ (hexEncode bs).toList, c ∈ ("0123456789abcdef".toList) := by
  induction bs with
  | nil => intro c hc; simp [hexEncode, String.toList] at hc
  | cons b bs ih =>
    intro c hc
    have hb0 : b < 256 := hb b (by simp)
    simp only [hexEncode, String.toList, List.foldr_cons, List.mem_cons]
      at hc
    rcases hc with rfl | rfl | hc
    · exact hexDigit_mem (b / 16) (by omega)
    · exact hexDigit_mem (b % 16) (by omega)
    · exact ih (fun x hx => hb x (by simp [hx])) c hc

/-- C7: the digesting reader absorbs into its digest state exactly the
bytes it returns to callers; an inner read error propagates unchanged
before anything is absorbed; finalization drains the stream to its end so
the digest covers the complete stream even when the consumer stopped
early, returning the lowercase hexadecimal SHA-256 digest of the full
stream together with the exhausted underlying stream; a drain error
propagates unchanged; and the rendered digest uses only lowercase
hexadecimal characters. -/
theorem c7_digesting_reader :
    (∀ (r r2 : Sha256Reader) (bs : List Nat),
        r.read = .ok (bs, r2) → r2.sha = r.sha ++ bs) ∧
    (∀ (r : Sha256Reader) (e : String) (rest : List Chunk),
        r.inner = .error e :: rest → r.read = .error e) ∧
    (∀ (r : Sha256Reader) (rem : List Nat),
        drainAll r.inner = .ok rem →
        r.finish = .ok (hexEncode (sha256 (r.sha ++ rem)), [])) ∧
    (∀ (r : Sha256Reader) (e : String),
        drainAll r.inner = .error e → r.finish = .error e) ∧
    (∀ (bs : List Nat), (∀ b ∈ bs, b < 256) →
        ∀ c ∈ (hexEncode bs).toList, c ∈ ("0123456789abcdef".toList)) ∧
    (∀ (m : List Nat), ∀ b ∈ sha256 m, b < 256) := by
  refine ⟨?_, ?_, ?_, ?_, ?_, ?_⟩
  · intro r r2 bs h
    obtain ⟨inner, sha⟩ := r
    cases inner with
    | nil =>
      simp [Sha256Reader.read] at h
      obtain ⟨h1, h2⟩ := h
      subst h1
      subst h2
      simp
    | cons c rest =>
      cases c with
      | error e => simp [Sha256Reader.read] at h
      | ok bs2 =>
        simp [Sha256Reader.read] at h
        obtain ⟨h1, h2⟩ := h
        subst h1
        subst h2
        rfl
  · intro r e rest h
    simp [Sha256Reader.read, h]
  · intro r rem h
    simp [Sha256Reader.finish, h]
  · intro r e h
    simp [Sha256Reader.finish, h]
  · intro bs hb c hc
    exact hexEncode_chars bs hb c hc
  · intro m b hb
    exact mem_sha256_lt m b hb

/-- C7 witness: the statement applied at concrete streams. -/
theorem c7_digesting_reader_witness :
    (Sha256Reader.mk [Except.ok [97]] [3]).read =
      .ok ([97], ⟨[], [3, 97]⟩) ∧
    (⟨[], [3, 97]⟩ : Sha256Reader).sha = [3] ++ [97] ∧
    (Sha256Reader.mk [Except.error "io"] []).inner =
      .error "io" :: [] ∧
    (Sha256Reader.mk [Except.error "io"] []).read = .error "io" ∧
    drainAll [Except.ok [97]] = .ok [97] ∧
    (Sha256Reader.mk [Except.ok [97]] [3]).finish =
      .ok (hexEncode (sha256 ([3] ++ [97])), []) ∧
    drainAll [Except.error "io"] = .error "io" ∧
    (Sha256Reader.mk [Except.error "io"] []).finish = .error "io" ∧
    (∀ b ∈ [0, 255], b < 256) ∧
    '0' ∈ (hexEncode [0, 255]).toList ∧
    '0' ∈ ("0123456789abcdef".toList) :=
  ⟨by rfl,
    c7_digesting_reader.1 (Sha256Reader.mk [Except.ok [97]] [3])
      ⟨[], [3, 97]⟩ [97] (by rfl),
    by rfl,
    c7_digesting_reader.2.1 (Sha256Reader.mk [Except.error "io"] [])
      "io" [] (by rfl),
    by rfl,
    c7_digesting_reader.2.2.1 (Sha256Reader.mk [Except.ok [97]] [3])
      [97] (by rfl),
    by rfl,
    c7_digesting_reader.2.2.2.1 (Sha256Reader.mk [Except.error "io"] [])
      "io" (by rfl),
    by decide, by decide,
    c7_digesting_reader.2.2.2.2.1 [0, 255] (by decide) '0' (by decide)⟩

set_option maxRecDepth 4000 in
/-- Args of a successfully built process follow the entrypoint and cmd
match of the source; the absent and absent case keeps the default args. -/
theorem buildProcess_args (db : IdDb) (c : ImgExecConfig) (p : RtProcess)
    (h : buildProcess db c = .ok p) :
    p.args = (match c.entrypoint, c.cmd with
      | none, none => defaultProcess.args
      | none, some cmd => some cmd
      | some ep, none => some ep
      | some ep, some cmd => some (ep ++ cmd)) := by
  rcases c with ⟨wd, ep, cmd, env, user⟩
  cases user with
  | none =>
    cases wd <;> cases ep <;> cases cmd <;>
      (simp [buildProcess] at h; subst h; rfl)
  | some u =>
    rcases hbu : buildUser db u with m | us
    · cases wd <;> cases ep <;> cases cmd <;> simp [buildProcess, hbu] at h
    · cases wd <;> cases ep <;> cases cmd <;>
        (simp [buildProcess, hbu] at h; subst h; rfl)

/-- C8 counterexample: the claim states args is unset when entrypoint and
cmd are both absent. The builder default process already carries args sh,
and the absent and absent arm of the source touches nothing, so the
produced process keeps args sh instead of leaving args unset. -/
theorem c8_absent_absent_args_sh :
    createRuntimeConfig ⟨[], []⟩
        (ImageConfig.mk (some ⟨none, none, none, none, none⟩)) =
      .ok ⟨some ⟨"/", some ["sh"], none, none⟩⟩ ∧
    (some ["sh"] : Option (List String)) ≠ none := by
  exact ⟨rfl, by decide⟩

/-- C8 amended: for an image configuration with a config sub-block, a
successful translation yields a spec whose process args follow the
four-case matrix over entrypoint and cmd: the builder default args, the
single element sh, when both are absent (not unset), cmd alone, entrypoint
alone, and entrypoint followed by cmd when both are present. -/
theorem c8_args_matrix :
    ∀ (db : IdDb) (cfg : ImageConfig) (c : ImgExecConfig) (sp : RtSpec),
      cfg.config = some c → createRuntimeConfig db cfg = .ok sp →
      ∃ p : RtProcess, sp.process = some p ∧
        p.args = (match c.entrypoint, c.cmd with
          | none, none => some ["sh"]
          | none, some cmd => some cmd
          | some ep, none => some ep
          | some ep, some cmd => some (ep ++ cmd)) := by
  intro db cfg c sp hc h
  simp only [createRuntimeConfig, hc] at h
  rcases hb : buildProcess db c with m | p
  · rw [hb] at h
    cases h
  · rw [hb] at h
    simp at h
    exact ⟨p, by rw [← h], buildProcess_args db c p hb⟩

/-- C8 witness: the amended statement applied at a concrete configuration
with both entrypoint and cmd present, and at one with both absent. -/
theorem c8_args_matrix_witness :
    (ImageConfig.mk (some ⟨some "/srv", some ["/bin/sh", "-c"],
      some ["echo hi"], some ["PATH=/usr/bin"], none⟩)).config =
      some ⟨some "/srv", some ["/bin/sh", "-c"], some ["echo hi"],
        some ["PATH=/usr/bin"], none⟩ ∧
    createRuntimeConfig ⟨[], []⟩ (ImageConfig.mk (some ⟨some "/srv",
      some ["/bin/sh", "-c"], some ["echo hi"],
      some ["PATH=/usr/bin"], none⟩)) =
      .ok ⟨some ⟨"/srv", some ["/bin/sh", "-c", "echo hi"],
        some ["PATH=/usr/bin"], none⟩⟩ ∧
    (∃ p : RtProcess,
      (⟨some ⟨"/srv", some ["/bin/sh", "-c", "echo hi"],
        some ["PATH=/usr/bin"], none⟩⟩ : RtSpec).process = some p ∧
      p.args = some (["/bin/sh", "-c"] ++ ["echo hi"])) ∧
    (∃ p : RtProcess,
      (⟨some ⟨"/", some ["sh"], none, none⟩⟩ : RtSpec).process = some p ∧
      p.args = some ["sh"]) :=
  ⟨rfl, by rfl,
    c8_args_matrix ⟨[], []⟩ (ImageConfig.mk (some ⟨some "/srv",
      some ["/bin/sh", "-c"], some ["echo hi"],
      some ["PATH=/usr/bin"], none⟩))
      ⟨some "/srv", some ["/bin/sh", "-c"], some ["echo hi"],
        some ["PATH=/usr/bin"], none⟩
      ⟨some ⟨"/srv", some ["/bin/sh", "-c", "echo hi"],
        some ["PATH=/usr/bin"], none⟩⟩ rfl (by rfl),
    c8_args_matrix ⟨[], []⟩
      (ImageConfig.mk (some ⟨none, none, none, none, none⟩))
      ⟨none, none, none, none, none⟩
      ⟨some ⟨"/", some ["sh"], none, none⟩⟩ rfl (by rfl)⟩

/-- Splitting never yields the empty list. -/
theorem splitColon_ne_nil (l : List Char) : splitColon l ≠ [] := by
  cases l with
  | nil => simp [splitColon]
  | cons c rest =>
    cases h : splitColon rest with
    | nil => simp [splitColon, h]; split <;> simp
    | cons x t => simp [splitColon, h]; split <;> simp

/-- The number of pieces is one more than the number of colons. -/
theorem length_splitColon (l : List Char) :
    (splitColon l).length = l.count ':' + 1 := by
  induction l with
  | nil => simp [splitColon]
  | cons c rest ih =>
    cases h : splitColon rest with
    | nil => exact absurd h (splitColon_ne_nil rest)
    | cons x t =>
      rw [h] at ih
      simp only [List.length_cons] at ih
      by_cases hc : c = ':'
      · subst hc
        simp [splitColon, h, List.count_cons]
        omega
      · simp [splitColon, h, hc, List.count_cons]
        omega

/-- A colon-free list splits to itself alone. -/
theorem splitColon_no_colon (l : List Char) (h : ':' ∉ l) :
    splitColon l = [l] := by
  induction l with
  | nil => rfl
  | cons c rest ih =>
    have hc : c ≠ ':' := fun hx => h (by simp [hx])
    have hr : ':' ∉ rest := fun hx => h (by simp [hx])
    simp [splitColon, ih hr, hc]

/-- Splitting around a single colon after a colon-free head. -/
theorem splitColon_around (ua ub : List Char) (ha : ':' ∉ ua) :
    splitColon (ua ++ ':' :: ub) = ua :: splitColon ub := by
  induction ua with
  | nil =>
    cases h : splitColon ub with
    | nil => exact absurd h (splitColon_ne_nil ub)
    | cons x t => simp [splitColon, h]
  | cons a as ih =>
    have hc : a ≠ ':' := fun hx => ha (by simp [hx])
    have hr : ':' ∉ as := fun hx => ha (by simp [hx])
    cases h : splitColon (as ++ ':' :: ub) with
    | nil => exact absurd h (splitColon_ne_nil _)
    | cons x t =>
      have := ih hr
      rw [h] at this
      simp [splitColon, h, hc]
      cases this
      simp

/-- Rebuilding a string from its characters is the identity. -/
theorem mk_toList (s : String) : String.mk s.toList = s := rfl

/-- C9: the user translation of the config translator: a user string with
two or more colons is the invalid-format fatal error; a user and group
pair resolves uid from the user token and gid from the group token with no
supplementary gids; a single token resolves the user and collects as
supplementary gids the gids of every host group whose member list holds
the name of the uid-resolved user; and a numeric token absent from the
host database is a fatal error for users and for groups alike. -/
theorem c9_user_resolution :
    (∀ (db : IdDb) (u : String), 2 ≤ u.toList.count ':' →
        buildUser db u = .error "Invalid user format in Config.User") ∧
    (∀ (db : IdDb) (ua ub : List Char) (uid pg gid : Nat),
        ':' ∉ ua → ':' ∉ ub →
        resolveUser db (String.mk ua) = .ok (uid, pg) →
        resolveGroup db (String.mk ub) = .ok gid →
        buildUser db (String.mk (ua ++ ':' :: ub)) = .ok ⟨uid, gid, []⟩) ∧
    (∀ (db : IdDb) (u : String) (uid pg : Nat) (hu : HostUser),
        ':' ∉ u.toList → resolveUser db u = .ok (uid, pg) →
        getUserByUid db uid = some hu →
        buildUser db u = .ok ⟨uid, pg,
          (db.groups.filter (fun g => g.members.contains hu.name)).map
            (fun g => g.gid)⟩) ∧
    (∀ (db : IdDb) (s : String) (n : Nat), parseU32 s = some n →
        getUserByUid db n = none →
        resolveUser db s =
          .error ("User ID " ++ toString n ++ " not found")) ∧
    (∀ (db : IdDb) (s : String) (n : Nat), parseU32 s = some n →
        getGroupByGid db n = none →
        resolveGroup db s =
          .error ("Group ID " ++ toString n ++ " not found")) := by
  refine ⟨?_, ?_, ?_, ?_, ?_⟩
  · intro db u h2
    have hl := length_splitColon u.toList
    rcases hp : splitColon u.toList with _ | ⟨x, _ | ⟨y, t⟩⟩
    · exact absurd hp (splitColon_ne_nil _)
    · rw [hp] at hl
      simp only [List.length_cons, List.length_nil] at hl
      omega
    · cases t with
      | nil =>
        rw [hp] at hl
        simp only [List.length_cons, List.length_nil] at hl
        omega
      | cons z t2 =>
        have hp2 : splitColon u.data = x :: y :: z :: t2 := hp
        simp [buildUser, hp, hp2]
  · intro db ua ub uid pg gid ha hb hru hrg
    simp [buildUser, splitColon_around ua ub ha, splitColon_no_colon ub hb,
      hru, hrg]
  · intro db u uid pg hu hnc hru hguid
    have hs : splitColon u.data = [u.data] := splitColon_no_colon u.toList hnc
    have hru2 : resolveUser db ⟨u.data⟩ = .ok (uid, pg) := hru
    simp [buildUser, hs, hru2, resolveAdditionalGids, hguid]
  · intro db s n hp hn
    simp [resolveUser, hp, hn]
  · intro db s n hp hn
    simp [resolveGroup, hp, hn]

/-- C9 witness: the statement applied at a concrete host database. -/
theorem c9_user_resolution_witness :
    2 ≤ ("a:b:c".toList.count ':') ∧
    buildUser ⟨[⟨"alice", 7, 70⟩], [⟨"g1", 100, ["alice"]⟩,
      ⟨"g2", 101, ["bob"]⟩]⟩ "a:b:c" =
      .error "Invalid user format in Config.User" ∧
    buildUser ⟨[⟨"alice", 7, 70⟩], [⟨"g1", 100, ["alice"]⟩,
      ⟨"g2", 101, ["bob"]⟩]⟩
      (String.mk (['a', 'l', 'i', 'c', 'e'] ++ ':' :: ['1', '0', '0'])) =
      .ok ⟨7, 100, []⟩ ∧
    buildUser ⟨[⟨"alice", 7, 70⟩], [⟨"g1", 100, ["alice"]⟩,
      ⟨"g2", 101, ["bob"]⟩]⟩ "7" = .ok ⟨7, 70, [100]⟩ ∧
    resolveUser ⟨[⟨"alice", 7, 70⟩], [⟨"g1", 100, ["alice"]⟩,
      ⟨"g2", 101, ["bob"]⟩]⟩ "9" =
      .error ("User ID " ++ toString 9 ++ " not found") ∧
    resolveGroup ⟨[⟨"alice", 7, 70⟩], [⟨"g1", 100, ["alice"]⟩,
      ⟨"g2", 101, ["bob"]⟩]⟩ "9" =
      .error ("Group ID " ++ toString 9 ++ " not found") :=
  ⟨by decide,
    c9_user_resolution.1 ⟨[⟨"alice", 7, 70⟩], [⟨"g1", 100, ["alice"]⟩,
      ⟨"g2", 101, ["bob"]⟩]⟩ "a:b:c" (by decide),
    c9_user_resolution.2.1 ⟨[⟨"alice", 7, 70⟩], [⟨"g1", 100, ["alice"]⟩,
      ⟨"g2", 101, ["bob"]⟩]⟩ ['a', 'l', 'i', 'c', 'e'] ['1', '0', '0']
      7 70 100 (by decide) (by decide) (by rfl) (by rfl),
    by
      have h := c9_user_resolution.2.2.1 ⟨[⟨"alice", 7, 70⟩],
        [⟨"g1", 100, ["alice"]⟩, ⟨"g2", 101, ["bob"]⟩]⟩ "7" 7 70
        ⟨"alice", 7, 70⟩ (by decide) (by rfl) (by rfl)
      exact h,
    c9_user_resolution.2.2.2.1 ⟨[⟨"alice", 7, 70⟩],
      [⟨"g1", 100, ["alice"]⟩, ⟨"g2", 101, ["bob"]⟩]⟩ "9" 9
      (by rfl) (by rfl),
    c9_user_resolution.2.2.2.2 ⟨[⟨"alice", 7, 70⟩],
      [⟨"g1", 100, ["alice"]⟩, ⟨"g2", 101, ["bob"]⟩]⟩ "9" 9
      (by rfl) (by rfl)⟩

end OciBundle
